import Mathlib

/-!
# Verification of the `s3` package of the file-uploader repository

Shallow embedding of `s3/service.go`, `s3/validation.go` and `s3/entity.go`.
External collaborators (the AWS SDK client, the local filesystem, base64
decoding) are modelled as a deterministic oracle `Env`; every operation is
translated into a pure Lean function that returns its Go result together
with the ordered trace of calls it issued and (for `UploadFile`) the
resulting local-filesystem state.  Go errors are modelled by their message
strings.  The fragments of Go's standard library whose concrete behaviour
the code depends on (`mime.ExtensionsByType` error behaviour and
`filepath.Base`) are translated from the standard library sources,
restricted to ASCII input.
-/

/-- Go errors, modelled by their message string. -/
abbrev Err := String

/-- The local filesystem, modelled as the list of existing paths. -/
abbrev Fs := List String

/-- One external call made by the service: either a call on the object-store
client (`headObject`, `headBucket`, `createBucket`, `upload`,
`deleteObjects`) or a local filesystem operation. -/
inductive Ev where
  | headObject (bucket key : String)
  | headBucket (bucket : String)
  | createBucket (bucket : String)
  | upload (bucket key contentType : String) (partSize : Int)
  | deleteObjects (bucket : String) (keys : List String)
  | fsCreate (path : String)
  | fsWrite (path : String)
  | fsOpen (path : String)
  | fsRemove (path : String)
deriving DecidableEq

/-- Whether an event is a call on the remote object store (as opposed to a
local filesystem operation). -/
def Ev.isStoreCall : Ev → Bool
  | .headObject _ _ => true
  | .headBucket _ => true
  | .createBucket _ => true
  | .upload _ _ _ _ => true
  | .deleteObjects _ _ => true
  | _ => false

/-- Outcome of the SDK `HeadBucket` call, as discriminated by
`isExistBucket` in `service.go`: success, a `*types.NotFound` API error,
another `smithy.APIError`, or an error that is not a `smithy.APIError`
(so `errors.As` fails), e.g. a raw transport error. -/
inductive HeadBucketResp where
  | ok
  | errNotFound
  | errApi (msg : Err)
  | errNonApi (msg : Err)
deriving DecidableEq

/-- Outcome of the SDK `HeadObject` call, as discriminated by `isFileExist`
in `service.go`: success, an `awsHttp.ResponseError` carrying an HTTP
status code, or an error that is not a `ResponseError`. -/
inductive HeadObjectResp where
  | ok
  | errResp (status : Nat) (msg : Err)
  | errNonResp (msg : Err)
deriving DecidableEq

/-- Result of an operation that touches only the remote store: the Go
return value and the ordered trace of external calls. -/
structure OpResult (α : Type) where
  out : Except Err α
  tr : List Ev

/-- Result of `createFile`: Go return value, resulting filesystem, trace. -/
structure FileResult where
  out : Except Err Unit
  fs : Fs
  tr : List Ev

/-- Result of `UploadFile`: Go return value (the location string on
success), resulting local filesystem, and trace. -/
structure UpResult where
  out : Except Err String
  fs : Fs
  tr : List Ev

/-- The external world: responses of the object-store client, of the local
filesystem, of `os.TempDir`/`uuid.NewV4`, and of base64 decoding.  All are
deterministic functions, so a fixed `Env` describes one behaviour of the
collaborators. -/
structure Env where
  /-- `os.TempDir()`. -/
  tempDir : String
  /-- `uuid.NewV4().String()` for this call. -/
  uuid : String
  /-- `base64.StdEncoding.DecodeString`: the decoded bytes, or an error. -/
  decode : String → Except Err (List Nat)
  /-- Response of the SDK `HeadBucket` call. -/
  headBucket : String → HeadBucketResp
  /-- Response of the SDK `HeadObject` call. -/
  headObject : String → String → HeadObjectResp
  /-- Error of the SDK `CreateBucket` call (`none` = success). -/
  createBucketRes : String → Option Err
  /-- Result of `uploader.Upload`: the location string, or an error. -/
  uploadRes : String → String → String → Except Err String
  /-- Error of the SDK `DeleteObjects` call (`none` = success). -/
  deleteObjectsRes : String → List String → Option Err
  /-- Error of `os.Create` at a path (`none` = success). -/
  createRes : String → Option Err
  /-- Error of `file.Write` on the freshly created file (`none` = success). -/
  writeRes : String → Option Err
  /-- Error of `os.Open` at a path (`none` = success). -/
  openRes : String → Option Err

/-- `UploadFileData` from `s3/entity.go` (identical to `UploadFileRequest`). -/
structure UploadFileData where
  BucketName : String
  ContentType : String
  Filename : String
  Base64Encoding : String

/-- `DeleteFileData` from `s3/entity.go` (identical to `DeleteFileRequest`). -/
structure DeleteFileData where
  BucketName : String
  Filename : List String

/-- `DownloadFileRequest` from the entity file. -/
structure DownloadFileRequest where
  BucketName : String
  Filename : String

/-! ## Model of Go `mime.ExtensionsByType` error behaviour

`validateUploadFile` calls `mime.ExtensionsByType(data.ContentType)` and
only propagates its error.  In the Go standard library that error is
exactly the error of `mime.ParseMediaType`; the extension lookup itself
never fails.  The definitions below translate `mime/grammar.go` and the
error paths of `mime/mediatype.go` (ASCII fragment of the Unicode
classifiers, which suffices for ASCII content types). -/

/-- `mime/grammar.go`: the tspecial characters. -/
def isTSpecialChar (c : Char) : Bool :=
  c = '(' || c = ')' || c = '<' || c = '>' || c = '@' || c = ',' || c = ';' ||
  c = ':' || c = '\\' || c = '"' || c = '/' || c = '[' || c = ']' || c = '?' || c = '='

/-- `mime/grammar.go`: `isTokenChar`, `r > 0x20 && r < 0x7f && !isTSpecial(r)`. -/
def isTokenChar (c : Char) : Bool :=
  0x20 < c.toNat && c.toNat < 0x7f && !isTSpecialChar c

/-- `unicode.IsSpace` restricted to ASCII. -/
def goIsSpace (c : Char) : Bool :=
  c = ' ' || c = '\t' || c = '\n' || c = '\x0b' || c = '\x0c' || c = '\r'

/-- `strings.TrimSpace` on characters (ASCII fragment). -/
def goTrimSpace (s : List Char) : List Char :=
  ((s.dropWhile goIsSpace).reverse.dropWhile goIsSpace).reverse

/-- `mime`'s `consumeToken`: longest prefix of token characters, and rest. -/
def consumeToken (s : List Char) : List Char × List Char :=
  (s.takeWhile isTokenChar, s.dropWhile isTokenChar)

/-- `mime/mediatype.go` `checkMediaTypeDisposition`: `none` means no error,
`some e` the error message. -/
def checkMediaTypeDisposition (s : List Char) : Option Err :=
  let typ := s.takeWhile isTokenChar
  let rest := s.dropWhile isTokenChar
  if typ = [] then some "mime: no media type"
  else if rest = [] then none
  else if rest.head? ≠ some '/' then some "mime: expected slash after first token"
  else
    let rest1 := rest.tail
    let subtype := rest1.takeWhile isTokenChar
    let rest2 := rest1.dropWhile isTokenChar
    if subtype = [] then some "mime: expected token after slash"
    else if rest2 ≠ [] then some "mime: unexpected content after media subtype"
    else none

/-- `mime/mediatype.go` `consumeValue`, quoted-string branch: scan from
after the opening quote; `none` models Go's `return "", v` cases (no
closing quote, or a raw CR/LF inside the string). -/
def consumeValueQuoted : List Char → List Char → Option (List Char × List Char)
  | [], _ => none
  | '"' :: rest, acc => some (acc.reverse, rest)
  | '\\' :: d :: rest, acc =>
    if isTSpecialChar d then consumeValueQuoted rest (d :: acc)
    else consumeValueQuoted (d :: rest) ('\\' :: acc)
  | c :: rest, acc =>
    if c = '\r' || c = '\n' then none
    else consumeValueQuoted rest (c :: acc)

/-- `mime/mediatype.go` `consumeValue`. -/
def consumeValue (v : List Char) : List Char × List Char :=
  match v with
  | [] => ([], [])
  | c :: rest =>
    if c ≠ '"' then consumeToken v
    else
      match consumeValueQuoted rest [] with
      | some (val, r) => (val, r)
      | none => ([], v)

/-- `mime/mediatype.go` `consumeMediaParam`: returns (param, value, rest);
param `[]` encodes Go's `return "", "", v` failure outcome. -/
def consumeMediaParam (v : List Char) : List Char × List Char × List Char :=
  let r0 := v.dropWhile goIsSpace
  match r0 with
  | ';' :: r1 =>
    let r2 := r1.dropWhile goIsSpace
    let param := (r2.takeWhile isTokenChar).map Char.toLower
    let r3 := r2.dropWhile isTokenChar
    if param = [] then ([], [], v)
    else
      let r4 := r3.dropWhile goIsSpace
      match r4 with
      | '=' :: r5 =>
        let r6 := r5.dropWhile goIsSpace
        let (value, r7) := consumeValue r6
        if value = [] ∧ r7 = r6 then ([], [], v)
        else (param, value, r7)
      | _ => ([], [], v)
  | _ => ([], [], v)

/-- Association-list update used to model the Go parameter maps: Go only
inserts when the key is absent or already bound to the same value. -/
def assocPut (m : List (List Char × List Char)) (k v : List Char) :
    List (List Char × List Char) :=
  match m.lookup k with
  | some _ => m
  | none => (k, v) :: m

/-- The parameter loop of `mime/mediatype.go` `ParseMediaType`, keeping
only its error outcome (`none` = no error).  `params` and `contin` model
the `params` and `continuation` maps; the fuel argument is an upper bound
on the number of iterations (each successful iteration consumes at least
the leading semicolon, so `v.length + 1` always suffices). -/
def mimeParamLoop : Nat → List Char → List (List Char × List Char) →
    List (List Char × List (List Char × List Char)) → Option Err
  | 0, _, _, _ => some "mime: invalid media parameter"
  | fuel + 1, v, params, contin =>
    if v = [] then none
    else
      let v1 := v.dropWhile goIsSpace
      if v1 = [] then none
      else
        let (key, value, rest) := consumeMediaParam v1
        if key = [] then
          if goTrimSpace rest = [';'] then none
          else some "mime: invalid media parameter"
        else
          if key.contains '*' then
            let baseName := key.takeWhile (· ≠ '*')
            let sub := ((contin.lookup baseName).getD [])
            match sub.lookup key with
            | some vv =>
              if vv ≠ value then some "mime: duplicate parameter name"
              else mimeParamLoop fuel rest params
                ((baseName, assocPut sub key value) ::
                  contin.filter (fun p => p.1 ≠ baseName))
            | none => mimeParamLoop fuel rest params
                ((baseName, assocPut sub key value) ::
                  contin.filter (fun p => p.1 ≠ baseName))
          else
            match params.lookup key with
            | some vv =>
              if vv ≠ value then some "mime: duplicate parameter name"
              else mimeParamLoop fuel rest (assocPut params key value) contin
            | none => mimeParamLoop fuel rest (assocPut params key value) contin

/-- Error behaviour of `mime.ParseMediaType` (and hence of
`mime.ExtensionsByType`, which errors exactly when the parse errors):
`none` = the content type parses, `some e` = the parse error. -/
def parseMediaTypeErr (v : List Char) : Option Err :=
  let base := v.takeWhile (· ≠ ';')
  let mediatype := goTrimSpace (base.map Char.toLower)
  match checkMediaTypeDisposition mediatype with
  | some e => some e
  | none => mimeParamLoop (v.length + 1) (v.drop base.length) [] []

/-- `mime.ExtensionsByType` error outcome on a content-type string. -/
def extensionsByTypeErr (typ : String) : Option Err :=
  parseMediaTypeErr typ.data

/-! ## Model of `filepath.Base` (unix) -/

/-- `filepath.Base` on characters, unix separator: empty path gives `"."`;
trailing slashes are stripped; the last path element is returned; a path
of only slashes gives `"/"`. -/
def filepathBaseL (path : List Char) : List Char :=
  if path = [] then ['.']
  else
    let p1 := path.reverse.dropWhile (· = '/')
    if p1 = [] then ['/']
    else (p1.takeWhile (· ≠ '/')).reverse

/-- `filepath.Base` on strings. -/
def filepathBase (path : String) : String :=
  ⟨filepathBaseL path.data⟩

/-! ## The service operations (`s3/service.go`, `s3/validation.go`) -/

/-- `isExistBucket` (`service.go`): `HeadBucket`, translating a
`*types.NotFound` API error to `(false, nil)` and any other
`smithy.APIError` to `(false, err)`.  When the error is not a
`smithy.APIError` at all, `errors.As` fails and control falls through the
`if err != nil` block to `return true, nil`. -/
def isExistBucket (env : Env) (bucketName : String) : OpResult Bool :=
  let tr := [Ev.headBucket bucketName]
  match env.headBucket bucketName with
  | .ok => ⟨.ok true, tr⟩
  | .errNotFound => ⟨.ok false, tr⟩
  | .errApi m => ⟨.error m, tr⟩
  | .errNonApi _ => ⟨.ok true, tr⟩

/-- `isFileExist` (`service.go`): `HeadObject`, translating a
`ResponseError` with HTTP status 404 (`http.StatusNotFound`) to
`(false, nil)`, any other `ResponseError` to `(false, err)`, and an error
that is not a `ResponseError` to `(false, err)`. -/
def isFileExist (env : Env) (bucketName filename : String) : OpResult Bool :=
  let tr := [Ev.headObject bucketName filename]
  match env.headObject bucketName filename with
  | .ok => ⟨.ok true, tr⟩
  | .errResp status m => if status = 404 then ⟨.ok false, tr⟩ else ⟨.error m, tr⟩
  | .errNonResp m => ⟨.error m, tr⟩

/-- `CreateBucket` (`service.go`): rejects an empty bucket name before any
store call, then issues the SDK `CreateBucket` call. -/
def CreateBucket (env : Env) (bucketName : String) : OpResult Unit :=
  if bucketName = "" then ⟨.error "bucket name is required", []⟩
  else
    match env.createBucketRes bucketName with
    | some e => ⟨.error e, [Ev.createBucket bucketName]⟩
    | none => ⟨.ok (), [Ev.createBucket bucketName]⟩

/-- `validateUploadFile` (`validation.go`): required-field checks, then
`mime.ExtensionsByType` (only its error is consulted), then the
`isFileExist` probe with duplicate-name rejection. -/
def validateUploadFile (env : Env) (data : UploadFileData) : OpResult Unit :=
  if data.Filename = "" then ⟨.error "filename is required", []⟩
  else if data.Base64Encoding = "" then ⟨.error "base64Encoding is required", []⟩
  else if data.BucketName = "" then ⟨.error "bucket name is required", []⟩
  else
    match extensionsByTypeErr data.ContentType with
    | some e => ⟨.error e, []⟩
    | none =>
      let f := isFileExist env data.BucketName data.Filename
      match f.out with
      | .error e => ⟨.error e, f.tr⟩
      | .ok fileExist =>
        if fileExist then
          ⟨.error ("file " ++ data.Filename ++ " already exist on bucket " ++ data.BucketName),
            f.tr⟩
        else ⟨.ok (), f.tr⟩

/-- `validateDeleteFile` (`validation.go`): pure required-field checks. -/
def validateDeleteFile (data : DeleteFileData) : Option Err :=
  if data.Filename = [] then some "filename is required"
  else if data.BucketName = "" then some "bucket name is required"
  else none

/-- The staging path of `UploadFile` (`service.go`):
`filepath.Base(fmt.Sprintf("%s/%s/%s", os.TempDir(), uuid.NewV4().String(), data.Filename))`. -/
def uploadPathFile (env : Env) (data : UploadFileData) : String :=
  filepathBase (env.tempDir ++ "/" ++ env.uuid ++ "/" ++ data.Filename)

/-- `createFile` (`service.go`): base64-decode the payload, `os.Create`
the staging path (which puts the file on disk), then write the decoded
bytes; each step returns its error. -/
def createFile (env : Env) (fileBase64 pathFile : String) (fs : Fs) : FileResult :=
  match env.decode fileBase64 with
  | .error e => ⟨.error e, fs, []⟩
  | .ok _ =>
    match env.createRes pathFile with
    | some e => ⟨.error e, fs, []⟩
    | none =>
      let fs1 := pathFile :: fs
      match env.writeRes pathFile with
      | some e => ⟨.error e, fs1, [Ev.fsCreate pathFile]⟩
      | none => ⟨.ok (), fs1, [Ev.fsCreate pathFile, Ev.fsWrite pathFile]⟩

/-- `removeFile` (`service.go`): `os.RemoveAll` on the path, modelled as
removing the path from the filesystem (it succeeds whether or not the path
exists). -/
def removeFile (pathFile : String) (fs : Fs) : Fs × List Ev :=
  (fs.filter (· ≠ pathFile), [Ev.fsRemove pathFile])

/-- `UploadFile` (`service.go`): validate; stage the payload with
`createFile`; from here a deferred `removeFile` runs on every exit path;
`os.Open` the staged file; probe the bucket and create it when absent;
upload with a part size of `10 * 1024 * 1024` bytes; return the location
reported by the store. -/
def UploadFile (env : Env) (fs : Fs) (data : UploadFileData) : UpResult :=
  let v := validateUploadFile env data
  match v.out with
  | .error e => ⟨.error e, fs, v.tr⟩
  | .ok _ =>
    let p := uploadPathFile env data
    let c := createFile env data.Base64Encoding p fs
    match c.out with
    | .error e => ⟨.error e, c.fs, v.tr ++ c.tr⟩
    | .ok _ =>
      match env.openRes p with
      | some e =>
        ⟨.error e, (removeFile p c.fs).1,
          v.tr ++ c.tr ++ [Ev.fsOpen p] ++ (removeFile p c.fs).2⟩
      | none =>
        let b := isExistBucket env data.BucketName
        match b.out with
        | .error e =>
          ⟨.error e, (removeFile p c.fs).1,
            v.tr ++ c.tr ++ [Ev.fsOpen p] ++ b.tr ++ (removeFile p c.fs).2⟩
        | .ok bucketExist =>
          let cr := if bucketExist then OpResult.mk (.ok ()) []
                    else CreateBucket env data.BucketName
          match cr.out with
          | .error e =>
            ⟨.error e, (removeFile p c.fs).1,
              v.tr ++ c.tr ++ [Ev.fsOpen p] ++ b.tr ++ cr.tr ++ (removeFile p c.fs).2⟩
          | .ok _ =>
            let upEv := Ev.upload data.BucketName data.Filename data.ContentType (10 * 1024 * 1024)
            match env.uploadRes data.BucketName data.Filename data.ContentType with
            | .error e =>
              ⟨.error ("failed to upload file: " ++ e), (removeFile p c.fs).1,
                v.tr ++ c.tr ++ [Ev.fsOpen p] ++ b.tr ++ cr.tr ++ [upEv] ++ (removeFile p c.fs).2⟩
            | .ok loc =>
              ⟨.ok loc, (removeFile p c.fs).1,
                v.tr ++ c.tr ++ [Ev.fsOpen p] ++ b.tr ++ cr.tr ++ [upEv] ++ (removeFile p c.fs).2⟩

/-- The probing loop of `DeleteFile` (`service.go`): probe each requested
filename with `isFileExist`, return the first probe error, and otherwise
collect (in request order) the filenames that exist. -/
def deleteProbe (env : Env) (bucketName : String) : List String → OpResult (List String)
  | [] => ⟨.ok [], []⟩
  | f :: rest =>
    let r := isFileExist env bucketName f
    match r.out with
    | .error e => ⟨.error e, r.tr⟩
    | .ok isExist =>
      let rec' := deleteProbe env bucketName rest
      match rec'.out with
      | .error e => ⟨.error e, r.tr ++ rec'.tr⟩
      | .ok l => ⟨.ok (if isExist then f :: l else l), r.tr ++ rec'.tr⟩

/-- `DeleteFile` (`service.go`): validate, probe every requested filename,
then issue a single `DeleteObjects` call whose object list is exactly the
existing filenames (with no guard against an empty list). -/
def DeleteFile (env : Env) (data : DeleteFileData) : OpResult Unit :=
  match validateDeleteFile data with
  | some e => ⟨.error e, []⟩
  | none =>
    let pr := deleteProbe env data.BucketName data.Filename
    match pr.out with
    | .error e => ⟨.error e, pr.tr⟩
    | .ok fileExist =>
      match env.deleteObjectsRes data.BucketName fileExist with
      | some e => ⟨.error e, pr.tr ++ [Ev.deleteObjects data.BucketName fileExist]⟩
      | none => ⟨.ok (), pr.tr ++ [Ev.deleteObjects data.BucketName fileExist]⟩

/-- `validateDownloadFile` (the unnamed validation source file): empty
field checks, then the bucket probe (`ErrBucketNotFound` when absent),
then the file probe (`ErrFileNotFound` when absent). -/
def validateDownloadFile (env : Env) (data : DownloadFileRequest) : OpResult Unit :=
  if data.BucketName = "" then ⟨.error "bucket name is required", []⟩
  else if data.Filename = "" then ⟨.error "filename is required", []⟩
  else
    let b := isExistBucket env data.BucketName
    match b.out with
    | .error e => ⟨.error e, b.tr⟩
    | .ok isExist =>
      if !isExist then ⟨.error "bucket not found", b.tr⟩
      else
        let f := isFileExist env data.BucketName data.Filename
        match f.out with
        | .error e => ⟨.error e, b.tr ++ f.tr⟩
        | .ok isExist2 =>
          if !isExist2 then ⟨.error "file not found", b.tr ++ f.tr⟩
          else ⟨.ok (), b.tr ++ f.tr⟩

/-- The error outcome of one `isFileExist` probe, as a function of the
oracle response (`none` = the probe returns a boolean without error). -/
def probeErr (env : Env) (bucketName filename : String) : Option Err :=
  match env.headObject bucketName filename with
  | .ok => none
  | .errResp status m => if status = 404 then none else some m
  | .errNonResp m => some m

/-- Whether an `isFileExist` probe reports the file as existing. -/
def fileExistsB (env : Env) (bucketName filename : String) : Bool :=
  match env.headObject bucketName filename with
  | .ok => true
  | _ => false

/-! ## Concrete environments used by witnesses and counterexamples -/

/-- A fully successful environment: decoding succeeds, the bucket exists,
the target object does not (404 probe), and every filesystem and store
call succeeds. -/
def baseEnv : Env where
  tempDir := "/tmp"
  uuid := "11111111-2222-3333-4444-555555555555"
  decode := fun _ => .ok [104, 101, 108, 108, 111]
  headBucket := fun _ => .ok
  headObject := fun _ _ => .errResp 404 "NotFound: Not Found"
  createBucketRes := fun _ => none
  uploadRes := fun _ _ _ => .ok "https://bucket.s3.amazonaws.com/a.txt"
  deleteObjectsRes := fun _ _ => none
  createRes := fun _ => none
  writeRes := fun _ => none
  openRes := fun _ => none

/-- A well-formed upload request for `bucket/a.txt` with a registered
content type. -/
def plainData : UploadFileData :=
  ⟨"bucket", "text/plain", "a.txt", "aGVsbG8="⟩

/-! ## C2: missing required fields fail before any store call -/

/-- `validateUploadFile` on a request with a missing required field fails
with the corresponding "is required" error and issues no call. -/
theorem validateUploadFile_missing (env : Env) (u : UploadFileData)
    (h : u.Filename = "" ∨ u.Base64Encoding = "" ∨ u.BucketName = "") :
    ∃ m, validateUploadFile env u = ⟨.error m, []⟩ ∧
      (m = "filename is required" ∨ m = "base64Encoding is required" ∨
        m = "bucket name is required") := by
  by_cases hf : u.Filename = ""
  · exact ⟨_, by simp [validateUploadFile, hf], .inl rfl⟩
  · by_cases hb : u.Base64Encoding = ""
    · exact ⟨_, by simp [validateUploadFile, hf, hb], .inr (.inl rfl)⟩
    · have hbn : u.BucketName = "" := by tauto
      exact ⟨_, by simp [validateUploadFile, hf, hb, hbn], .inr (.inr rfl)⟩

/-- A validation error short-circuits `UploadFile`. -/
theorem uploadFile_of_validate_error (env : Env) (fs : Fs) (u : UploadFileData)
    (m : Err) (tr : List Ev) (h : validateUploadFile env u = ⟨.error m, tr⟩) :
    UploadFile env fs u = ⟨.error m, fs, tr⟩ := by
  simp [UploadFile, h]

/-- C2: every request with a missing/empty required field (UploadFile:
empty filename, payload, or bucketName; DeleteFile: empty filename list or
empty bucketName; CreateBucket: empty name) fails with the corresponding
required-field error, and the trace of the operation contains no call on
the object store. -/
theorem missing_required_field_fails_before_store_call
    (env : Env) (fs : Fs) (u : UploadFileData) (d : DeleteFileData) (b : String) :
    ((u.Filename = "" ∨ u.Base64Encoding = "" ∨ u.BucketName = "") →
      (∃ m, (UploadFile env fs u).out = .error m ∧
        (m = "filename is required" ∨ m = "base64Encoding is required" ∨
          m = "bucket name is required")) ∧
      (UploadFile env fs u).tr.filter Ev.isStoreCall = []) ∧
    ((d.Filename = [] ∨ d.BucketName = "") →
      (∃ m, (DeleteFile env d).out = .error m ∧
        (m = "filename is required" ∨ m = "bucket name is required")) ∧
      (DeleteFile env d).tr.filter Ev.isStoreCall = []) ∧
    (b = "" →
      (CreateBucket env b).out = .error "bucket name is required" ∧
      (CreateBucket env b).tr.filter Ev.isStoreCall = []) := by
  refine ⟨fun hu => ?_, fun hd => ?_, fun hb => ?_⟩
  · obtain ⟨m, hm, hcase⟩ := validateUploadFile_missing env u hu
    rw [uploadFile_of_validate_error env fs u m [] hm]
    exact ⟨⟨m, rfl, hcase⟩, rfl⟩
  · rcases hd with hfn | hbn
    · have : validateDeleteFile d = some "filename is required" := by
        simp [validateDeleteFile, hfn]
      simp only [DeleteFile, this]
      exact ⟨⟨_, rfl, .inl rfl⟩, rfl⟩
    · by_cases hfn : d.Filename = []
      · have : validateDeleteFile d = some "filename is required" := by
          simp [validateDeleteFile, hfn]
        simp only [DeleteFile, this]
        exact ⟨⟨_, rfl, .inl rfl⟩, rfl⟩
      · have : validateDeleteFile d = some "bucket name is required" := by
          simp [validateDeleteFile, hfn, hbn]
        simp only [DeleteFile, this]
        exact ⟨⟨_, rfl, .inr rfl⟩, rfl⟩
  · subst hb
    exact ⟨rfl, rfl⟩

/-- Witness for C2 at concrete inputs: an upload request with an empty
payload, a delete request with an empty filename list, and
`CreateBucket ""` all fail without touching the store. -/
theorem missing_required_field_fails_before_store_call_witness :
    ((∃ m, (UploadFile baseEnv [] ⟨"bucket", "text/plain", "a.txt", ""⟩).out = .error m ∧
        (m = "filename is required" ∨ m = "base64Encoding is required" ∨
          m = "bucket name is required")) ∧
      (UploadFile baseEnv [] ⟨"bucket", "text/plain", "a.txt", ""⟩).tr.filter Ev.isStoreCall = []) ∧
    ((∃ m, (DeleteFile baseEnv ⟨"bucket", []⟩).out = .error m ∧
        (m = "filename is required" ∨ m = "bucket name is required")) ∧
      (DeleteFile baseEnv ⟨"bucket", []⟩).tr.filter Ev.isStoreCall = []) ∧
    ((CreateBucket baseEnv "").out = .error "bucket name is required" ∧
      (CreateBucket baseEnv "").tr.filter Ev.isStoreCall = []) := by
  have h := missing_required_field_fails_before_store_call baseEnv []
    ⟨"bucket", "text/plain", "a.txt", ""⟩ ⟨"bucket", []⟩ ""
  exact ⟨h.1 (.inr (.inl rfl)), h.2.1 (.inl rfl), h.2.2 rfl⟩

/-! ## C6: translation of existence-probe failures -/

/-- An environment whose `HeadBucket` fails with an error that is not a
`smithy.APIError` (a raw transport failure). -/
def envNonApiBucket : Env :=
  { baseEnv with headBucket := fun _ => .errNonApi "dial tcp 10.0.0.1:443: connection refused" }

/-- Counterexample to C6: a bucket-probe failure that is not a
`smithy.APIError` (e.g. a transport error) is not returned to the caller
as an error — `isExistBucket` falls through `errors.As` and reports
`(true, nil)`. -/
theorem bucketExists_nonapi_failure_not_an_error :
    (isExistBucket envNonApiBucket "bucket").out = .ok true := rfl

/-- C6 (amended): a "not found" response yields `(false, nil)` for both
probes; for `isFileExist` every other failure (non-404 response error or
non-response error) is returned as an error; for `isExistBucket` a
`smithy.APIError` other than not-found is returned as an error, but a
failure that is not a `smithy.APIError` falls through and yields
`(true, nil)`. -/
theorem existence_probe_error_translation (env : Env) (b f : String) :
    (env.headBucket b = .errNotFound → (isExistBucket env b).out = .ok false) ∧
    (∀ m, env.headBucket b = .errApi m → (isExistBucket env b).out = .error m) ∧
    (∀ m, env.headBucket b = .errNonApi m → (isExistBucket env b).out = .ok true) ∧
    (∀ m, env.headObject b f = .errResp 404 m → (isFileExist env b f).out = .ok false) ∧
    (∀ s m, env.headObject b f = .errResp s m → s ≠ 404 →
      (isFileExist env b f).out = .error m) ∧
    (∀ m, env.headObject b f = .errNonResp m → (isFileExist env b f).out = .error m) := by
  refine ⟨fun h => ?_, fun m h => ?_, fun m h => ?_, fun m h => ?_,
    fun s m h hs => ?_, fun m h => ?_⟩
  · simp [isExistBucket, h]
  · simp [isExistBucket, h]
  · simp [isExistBucket, h]
  · simp [isFileExist, h]
  · simp [isFileExist, h, hs]
  · simp [isFileExist, h]

/-- An environment where the bucket probe fails with an access-denied API
error and the object probe fails with a non-response error. -/
def envProbeErrors : Env :=
  { baseEnv with
      headBucket := fun _ => .errApi "api error AccessDenied: access denied"
      headObject := fun _ _ => .errNonResp "request canceled" }

/-- Witness for C6: concrete probe failures are surfaced as stated. -/
theorem existence_probe_error_translation_witness :
    (isExistBucket envProbeErrors "bucket").out = .error "api error AccessDenied: access denied" ∧
    (isFileExist envProbeErrors "bucket" "a.txt").out = .error "request canceled" :=
  ⟨(existence_probe_error_translation envProbeErrors "bucket" "a.txt").2.1 _ rfl,
    (existence_probe_error_translation envProbeErrors "bucket" "a.txt").2.2.2.2.2 _ rfl⟩

/-! ## C5: content-type validation -/

/-- An upload request whose content type is syntactically valid but not a
registered MIME type. -/
def bogusTypeData : UploadFileData :=
  ⟨"bucket", "application/x-bogus-unregistered", "a.txt", "aGVsbG8="⟩

/-- Counterexample to C5: with content type
`"application/x-bogus-unregistered"` the upload does not fail at all — the
code only propagates the parse error of `mime.ExtensionsByType`, and a
well-formed unregistered type parses without error, so the transfer runs
and succeeds. -/
theorem uploadFile_bogus_contentType_succeeds :
    (UploadFile baseEnv [] bogusTypeData).out =
      .ok "https://bucket.s3.amazonaws.com/a.txt" := rfl

/-- C5 (amended): the content-type gate of `UploadFile` fails exactly on
content types rejected by Go's media-type parser: when
`mime.ExtensionsByType` reports a parse error the operation returns that
error before staging or any store call, while a well-formed but
unregistered type such as `"application/x-bogus-unregistered"` passes the
gate (and a malformed one such as `"application/"` does not). -/
theorem uploadFile_contentType_parse_error (env : Env) (fs : Fs)
    (u : UploadFileData) (e : Err)
    (hf : u.Filename ≠ "") (hb : u.Base64Encoding ≠ "") (hbn : u.BucketName ≠ "")
    (he : extensionsByTypeErr u.ContentType = some e) :
    (UploadFile env fs u).out = .error e ∧
    (UploadFile env fs u).tr = [] ∧
    extensionsByTypeErr "application/x-bogus-unregistered" = none ∧
    extensionsByTypeErr "application/" = some "mime: expected token after slash" := by
  have hv : validateUploadFile env u = ⟨.error e, []⟩ := by
    simp [validateUploadFile, hf, hb, hbn, he]
  rw [uploadFile_of_validate_error env fs u e [] hv]
  exact ⟨rfl, rfl, rfl, rfl⟩

/-- Witness for C5 (amended) at the malformed content type
`"application/"`. -/
theorem uploadFile_contentType_parse_error_witness :
    (UploadFile baseEnv [] ⟨"bucket", "application/", "a.txt", "aGVsbG8="⟩).out =
      .error "mime: expected token after slash" ∧
    (UploadFile baseEnv [] ⟨"bucket", "application/", "a.txt", "aGVsbG8="⟩).tr = [] := by
  have h := uploadFile_contentType_parse_error baseEnv []
    ⟨"bucket", "application/", "a.txt", "aGVsbG8="⟩ "mime: expected token after slash"
    (by decide) (by decide) (by decide) rfl
  exact ⟨h.1, h.2.1⟩

/-! ## C4: the staging path -/

/-- C4 (code bug): the staging path of `UploadFile` is
`filepath.Base(fmt.Sprintf("%s/%s/%s", os.TempDir(), uuid, filename))`,
and `filepath.Base` keeps only the last path element, so the freshly
generated UUID (and the temp directory) are discarded: the staged file is
the bare request filename in the current working directory, with no
random unique identifier in the path. -/
theorem uploadPathFile_discards_uuid :
    uploadPathFile baseEnv plainData = "a.txt" ∧
    ¬ List.IsInfix baseEnv.uuid.data (uploadPathFile baseEnv plainData).data ∧
    ¬ List.IsInfix baseEnv.tempDir.data (uploadPathFile baseEnv plainData).data := by
  refine ⟨rfl, ?_, ?_⟩ <;> decide

/-! ## C1: removal of the staged temporary file -/

/-- An environment in which `os.Create` succeeds but the subsequent
`file.Write` of the decoded payload fails. -/
def envWriteFail : Env :=
  { baseEnv with writeRes := fun _ => some "write a.txt: no space left on device" }

/-- Counterexample to C1: when staging creates the temporary file but the
write of the decoded bytes then fails, `UploadFile` returns before the
deferred `removeFile` is registered, so the staged file remains on disk
and no removal ever runs. -/
theorem uploadFile_write_failure_leaks_staged_file :
    Ev.fsCreate "a.txt" ∈ (UploadFile envWriteFail [] plainData).tr ∧
    (UploadFile envWriteFail [] plainData).out =
      .error "write a.txt: no space left on device" ∧
    "a.txt" ∈ (UploadFile envWriteFail [] plainData).fs ∧
    Ev.fsRemove "a.txt" ∉ (UploadFile envWriteFail [] plainData).tr :=
  ⟨by decide, rfl, by decide, by decide⟩

/-- C1 (amended): for every `UploadFile` call in which staging completes —
`createFile` created the temporary file and wrote the decoded payload
without error — the deferred `removeFile` runs and the staged path is
absent from the resulting filesystem on every exit path (open failure,
bucket-probe failure, bucket-creation failure, upload failure, and
success).  When the write fails after creation the file is leaked. -/
theorem uploadFile_removes_staged_file_after_staging
    (env : Env) (fs : Fs) (data : UploadFileData) (bs : List Nat)
    (hv : (validateUploadFile env data).out = .ok ())
    (hd : env.decode data.Base64Encoding = .ok bs)
    (hc : env.createRes (uploadPathFile env data) = none)
    (hw : env.writeRes (uploadPathFile env data) = none) :
    uploadPathFile env data ∉ (UploadFile env fs data).fs ∧
    Ev.fsRemove (uploadPathFile env data) ∈ (UploadFile env fs data).tr := by
  have hcf : createFile env data.Base64Encoding (uploadPathFile env data) fs =
      ⟨.ok (), uploadPathFile env data :: fs,
        [Ev.fsCreate (uploadPathFile env data), Ev.fsWrite (uploadPathFile env data)]⟩ := by
    simp [createFile, hd, hc, hw]
  simp only [UploadFile, hv, hcf]
  repeat' split
  all_goals simp [removeFile]

/-- Witness for C1 (amended): in the all-success environment the staged
file `a.txt` is gone after the upload and the removal ran. -/
theorem uploadFile_removes_staged_file_after_staging_witness :
    "a.txt" ∉ (UploadFile baseEnv [] plainData).fs ∧
    Ev.fsRemove "a.txt" ∈ (UploadFile baseEnv [] plainData).tr := by
  have h := uploadFile_removes_staged_file_after_staging baseEnv [] plainData
    [104, 101, 108, 108, 111] rfl rfl rfl rfl
  exact h

/-! ## C7: duplicate upload target -/

/-- C7: when the existence probe reports that the target filename already
exists in the destination bucket, `UploadFile` fails with the
already-exists error; the only external call is the head-object probe, so
no transfer is issued and the local filesystem is untouched (no staging). -/
theorem uploadFile_already_exists_no_transfer
    (env : Env) (fs : Fs) (data : UploadFileData)
    (hf : data.Filename ≠ "") (hb : data.Base64Encoding ≠ "") (hbn : data.BucketName ≠ "")
    (hm : extensionsByTypeErr data.ContentType = none)
    (hex : env.headObject data.BucketName data.Filename = .ok) :
    (UploadFile env fs data).out =
      .error ("file " ++ data.Filename ++ " already exist on bucket " ++ data.BucketName) ∧
    (UploadFile env fs data).fs = fs ∧
    (UploadFile env fs data).tr = [Ev.headObject data.BucketName data.Filename] ∧
    (∀ b k c ps, Ev.upload b k c ps ∉ (UploadFile env fs data).tr) ∧
    (∀ p, Ev.fsCreate p ∉ (UploadFile env fs data).tr) := by
  have hv : validateUploadFile env data =
      ⟨.error ("file " ++ data.Filename ++ " already exist on bucket " ++ data.BucketName),
        [Ev.headObject data.BucketName data.Filename]⟩ := by
    simp [validateUploadFile, hf, hb, hbn, hm, isFileExist, hex]
  rw [uploadFile_of_validate_error env fs data _ _ hv]
  refine ⟨rfl, rfl, rfl, fun b k c ps => ?_, fun p => ?_⟩ <;> simp

/-- An environment in which the target object already exists. -/
def envObjectExists : Env := { baseEnv with headObject := fun _ _ => .ok }

/-- Witness for C7 at a concrete request. -/
theorem uploadFile_already_exists_no_transfer_witness :
    (UploadFile envObjectExists [] plainData).out =
      .error "file a.txt already exist on bucket bucket" ∧
    (UploadFile envObjectExists [] plainData).fs = [] ∧
    (UploadFile envObjectExists [] plainData).tr = [Ev.headObject "bucket" "a.txt"] := by
  have h := uploadFile_already_exists_no_transfer envObjectExists [] plainData
    (by decide) (by decide) (by decide) rfl rfl
  exact ⟨h.1, h.2.1, h.2.2.1⟩

/-! ## C8: order of steps on a valid upload -/

/-- C8: on a valid upload request (validation passes, staging and open
succeed, the transfer succeeds) the trace is exactly: the validation
probe, staging (create then write), open, the bucket-existence probe,
bucket creation when and only when the bucket was absent, then the chunked
upload with part size `10 * 1024 * 1024` bytes under the request key and
declared content type, then the deferred removal.  In particular staging
and bucket creation precede the transfer, and the store-assigned location
is returned. -/
theorem uploadFile_success_step_order
    (env : Env) (fs : Fs) (data : UploadFileData) (m : Err) (bs : List Nat) (loc : String)
    (hf : data.Filename ≠ "") (hb : data.Base64Encoding ≠ "") (hbn : data.BucketName ≠ "")
    (hm : extensionsByTypeErr data.ContentType = none)
    (hho : env.headObject data.BucketName data.Filename = .errResp 404 m)
    (hdec : env.decode data.Base64Encoding = .ok bs)
    (hcr : env.createRes (uploadPathFile env data) = none)
    (hwr : env.writeRes (uploadPathFile env data) = none)
    (hop : env.openRes (uploadPathFile env data) = none)
    (hup : env.uploadRes data.BucketName data.Filename data.ContentType = .ok loc) :
    (env.headBucket data.BucketName = .ok →
      (UploadFile env fs data).out = .ok loc ∧
      (UploadFile env fs data).tr =
        [Ev.headObject data.BucketName data.Filename,
          Ev.fsCreate (uploadPathFile env data), Ev.fsWrite (uploadPathFile env data),
          Ev.fsOpen (uploadPathFile env data), Ev.headBucket data.BucketName,
          Ev.upload data.BucketName data.Filename data.ContentType (10 * 1024 * 1024),
          Ev.fsRemove (uploadPathFile env data)]) ∧
    (env.headBucket data.BucketName = .errNotFound →
      env.createBucketRes data.BucketName = none →
      (UploadFile env fs data).out = .ok loc ∧
      (UploadFile env fs data).tr =
        [Ev.headObject data.BucketName data.Filename,
          Ev.fsCreate (uploadPathFile env data), Ev.fsWrite (uploadPathFile env data),
          Ev.fsOpen (uploadPathFile env data), Ev.headBucket data.BucketName,
          Ev.createBucket data.BucketName,
          Ev.upload data.BucketName data.Filename data.ContentType (10 * 1024 * 1024),
          Ev.fsRemove (uploadPathFile env data)]) := by
  have hv : validateUploadFile env data =
      ⟨.ok (), [Ev.headObject data.BucketName data.Filename]⟩ := by
    simp [validateUploadFile, hf, hb, hbn, hm, isFileExist, hho]
  have hcf : createFile env data.Base64Encoding (uploadPathFile env data) fs =
      ⟨.ok (), uploadPathFile env data :: fs,
        [Ev.fsCreate (uploadPathFile env data), Ev.fsWrite (uploadPathFile env data)]⟩ := by
    simp [createFile, hdec, hcr, hwr]
  constructor
  · intro hhb
    have hbe : isExistBucket env data.BucketName =
        ⟨.ok true, [Ev.headBucket data.BucketName]⟩ := by
      simp [isExistBucket, hhb]
    simp [UploadFile, hv, hcf, hop, hbe, hup, removeFile]
  · intro hhb hcb
    have hbe : isExistBucket env data.BucketName =
        ⟨.ok false, [Ev.headBucket data.BucketName]⟩ := by
      simp [isExistBucket, hhb]
    have hcreate : CreateBucket env data.BucketName =
        ⟨.ok (), [Ev.createBucket data.BucketName]⟩ := by
      simp [CreateBucket, hbn, hcb]
    simp [UploadFile, hv, hcf, hop, hbe, hcreate, hup, removeFile]

/-- An all-success environment in which the destination bucket does not
exist yet, so the upload auto-provisions it. -/
def envBucketAbsent : Env := { baseEnv with headBucket := fun _ => .errNotFound }

/-- Witness for C8: concrete valid upload against an absent bucket. -/
theorem uploadFile_success_step_order_witness :
    (UploadFile envBucketAbsent [] plainData).out =
      .ok "https://bucket.s3.amazonaws.com/a.txt" ∧
    (UploadFile envBucketAbsent [] plainData).tr =
      [Ev.headObject "bucket" "a.txt", Ev.fsCreate "a.txt", Ev.fsWrite "a.txt",
        Ev.fsOpen "a.txt", Ev.headBucket "bucket", Ev.createBucket "bucket",
        Ev.upload "bucket" "a.txt" "text/plain" (10 * 1024 * 1024),
        Ev.fsRemove "a.txt"] := by
  have h := (uploadFile_success_step_order envBucketAbsent [] plainData
    "NotFound: Not Found" [104, 101, 108, 108, 111] "https://bucket.s3.amazonaws.com/a.txt"
    (by decide) (by decide) (by decide) rfl rfl rfl rfl rfl rfl rfl).2 rfl rfl
  exact h

/-! ## C3 and C10: DeleteFile probing and the batch delete -/

/-- When no probe errors, the probing loop of `DeleteFile` probes every
requested filename in order and returns exactly the existing ones, in
request order. -/
theorem deleteProbe_no_errors (env : Env) (b : String) (l : List String)
    (h : ∀ f ∈ l, probeErr env b f = none) :
    deleteProbe env b l =
      ⟨.ok (l.filter (fun f => fileExistsB env b f)), l.map (Ev.headObject b)⟩ := by
  induction l with
  | nil => simp [deleteProbe]
  | cons f rest ih =>
    have hf := h f (List.mem_cons_self f rest)
    have hrest := fun g hg => h g (List.mem_cons_of_mem f hg)
    rcases hh : env.headObject b f with _ | ⟨s, m⟩ | m
    · simp [deleteProbe, isFileExist, hh, ih hrest, fileExistsB, List.filter_cons]
    · have hs : s = 404 := by
        by_contra hs
        simp [probeErr, hh, hs] at hf
      subst hs
      simp [deleteProbe, isFileExist, hh, ih hrest, fileExistsB, List.filter_cons]
    · exfalso
      simp [probeErr, hh] at hf

/-- C3: on a valid `DeleteFile` request whose probes all answer without
error, the trace is the head-object probe of every requested filename in
request order followed by exactly one batch-delete call whose key list is
exactly the existing subset in request order — issued even when that
subset is empty — and the operation succeeds when the batch call does. -/
theorem deleteFile_single_batch_delete (env : Env) (d : DeleteFileData)
    (hv : validateDeleteFile d = none)
    (h : ∀ f ∈ d.Filename, probeErr env d.BucketName f = none) :
    (DeleteFile env d).tr =
      d.Filename.map (Ev.headObject d.BucketName) ++
        [Ev.deleteObjects d.BucketName
          (d.Filename.filter (fun f => fileExistsB env d.BucketName f))] ∧
    (env.deleteObjectsRes d.BucketName
        (d.Filename.filter (fun f => fileExistsB env d.BucketName f)) = none →
      (DeleteFile env d).out = .ok ()) := by
  have hp := deleteProbe_no_errors env d.BucketName d.Filename h
  constructor
  · simp only [DeleteFile, hv, hp]
    split <;> rfl
  · intro hdel
    simp [DeleteFile, hv, hp, hdel]

/-- An environment in which `bucket/a.txt` exists and every other object
probe answers 404. -/
def envOnlyA : Env :=
  { baseEnv with
      headObject := fun _ f => if f = "a.txt" then .ok else .errResp 404 "NotFound: Not Found" }

/-- Witness for C3: deleting `["a.txt", "b.txt"]` when only `a.txt` exists
issues one batch delete containing only `a.txt`. -/
theorem deleteFile_single_batch_delete_witness :
    (DeleteFile envOnlyA ⟨"bucket", ["a.txt", "b.txt"]⟩).tr =
      [Ev.headObject "bucket" "a.txt", Ev.headObject "bucket" "b.txt",
        Ev.deleteObjects "bucket" ["a.txt"]] ∧
    (DeleteFile envOnlyA ⟨"bucket", ["a.txt", "b.txt"]⟩).out = .ok () := by
  have h := deleteFile_single_batch_delete envOnlyA ⟨"bucket", ["a.txt", "b.txt"]⟩
    rfl (by decide)
  exact ⟨h.1, h.2 rfl⟩

/-- The probing loop stops at the first filename whose probe errors,
having probed exactly the prefix up to and including it. -/
theorem deleteProbe_first_error (env : Env) (b : String)
    (pre : List String) (f : String) (post : List String) (e : Err)
    (hpre : ∀ g ∈ pre, probeErr env b g = none)
    (hf : probeErr env b f = some e) :
    deleteProbe env b (pre ++ f :: post) =
      ⟨.error e, (pre ++ [f]).map (Ev.headObject b)⟩ := by
  induction pre with
  | nil =>
    rcases hh : env.headObject b f with _ | ⟨s, m⟩ | m
    · simp [probeErr, hh] at hf
    · have hs : ¬ s = 404 := by
        intro hs
        subst hs
        simp [probeErr, hh] at hf
      have hm : m = e := by
        simpa [probeErr, hh, hs] using hf
      subst hm
      simp [deleteProbe, isFileExist, hh, hs]
    · have hm : m = e := by
        simpa [probeErr, hh] using hf
      subst hm
      simp [deleteProbe, isFileExist, hh]
  | cons g rest ih =>
    have hg := hpre g (List.mem_cons_self g rest)
    have hrest := fun x hx => hpre x (List.mem_cons_of_mem g hx)
    rcases hh : env.headObject b g with _ | ⟨s, m⟩ | m
    · simp [deleteProbe, isFileExist, hh, ih hrest]
    · have hs : s = 404 := by
        by_contra hs
        simp [probeErr, hh, hs] at hg
      subst hs
      simp [deleteProbe, isFileExist, hh, ih hrest]
    · exfalso
      simp [probeErr, hh] at hg

/-- C10: on a valid `DeleteFile` request, if some requested filename's
existence probe errors, the operation returns that first error, having
probed exactly the filenames up to and including the failing one, and
issues no delete call to the store. -/
theorem deleteFile_probe_error_aborts (env : Env) (d : DeleteFileData)
    (pre : List String) (f : String) (post : List String) (e : Err)
    (hv : validateDeleteFile d = none)
    (hsplit : d.Filename = pre ++ f :: post)
    (hpre : ∀ g ∈ pre, probeErr env d.BucketName g = none)
    (hf : probeErr env d.BucketName f = some e) :
    (DeleteFile env d).out = .error e ∧
    (DeleteFile env d).tr = (pre ++ [f]).map (Ev.headObject d.BucketName) ∧
    ∀ b ks, Ev.deleteObjects b ks ∉ (DeleteFile env d).tr := by
  have hp := deleteProbe_first_error env d.BucketName pre f post e hpre hf
  rw [← hsplit] at hp
  refine ⟨?_, ?_, ?_⟩
  · simp [DeleteFile, hv, hp]
  · simp [DeleteFile, hv, hp]
  · intro b ks
    simp [DeleteFile, hv, hp]

/-- An environment in which probing `bad.txt` fails with a non-404 error
while `a.txt` probes fine. -/
def envProbeBad : Env :=
  { baseEnv with
      headObject := fun _ f =>
        if f = "bad.txt" then .errNonResp "request canceled" else .errResp 404 "NotFound: Not Found" }

/-- Witness for C10: the failing probe of `bad.txt` aborts the delete of
`["a.txt", "bad.txt", "c.txt"]` before any delete call. -/
theorem deleteFile_probe_error_aborts_witness :
    (DeleteFile envProbeBad ⟨"bucket", ["a.txt", "bad.txt", "c.txt"]⟩).out =
      .error "request canceled" ∧
    (DeleteFile envProbeBad ⟨"bucket", ["a.txt", "bad.txt", "c.txt"]⟩).tr =
      [Ev.headObject "bucket" "a.txt", Ev.headObject "bucket" "bad.txt"] := by
  have h := deleteFile_probe_error_aborts envProbeBad ⟨"bucket", ["a.txt", "bad.txt", "c.txt"]⟩
    ["a.txt"] "bad.txt" ["c.txt"] "request canceled" rfl rfl (by decide) rfl
  exact ⟨h.1, h.2.1⟩

/-! ## C9: download-request validation -/

/-- C9: `validateDownloadFile` fails with the required-field error when
either field is empty; otherwise, when the bucket probe answers without
error, a `false` answer fails with `ErrBucketNotFound`; otherwise, when
the file probe answers without error, a `false` answer fails with
`ErrFileNotFound`; and when both probes answer `true` it succeeds. -/
theorem validateDownloadFile_cases (env : Env) (r : DownloadFileRequest) :
    ((r.BucketName = "" ∨ r.Filename = "") →
      ∃ m, (validateDownloadFile env r).out = .error m ∧
        (m = "bucket name is required" ∨ m = "filename is required")) ∧
    (r.BucketName ≠ "" → r.Filename ≠ "" →
      ∀ bb, (isExistBucket env r.BucketName).out = .ok bb →
        (bb = false → (validateDownloadFile env r).out = .error "bucket not found") ∧
        (bb = true →
          ∀ ff, (isFileExist env r.BucketName r.Filename).out = .ok ff →
            (ff = false → (validateDownloadFile env r).out = .error "file not found") ∧
            (ff = true → (validateDownloadFile env r).out = .ok ()))) := by
  constructor
  · intro h
    by_cases hb : r.BucketName = ""
    · exact ⟨_, by simp [validateDownloadFile, hb], .inl rfl⟩
    · have hf : r.Filename = "" := by tauto
      exact ⟨_, by simp [validateDownloadFile, hb, hf], .inr rfl⟩
  · intro hb hf bb hbb
    constructor
    · intro h
      subst h
      simp [validateDownloadFile, hb, hf, hbb]
    · intro h ff hff
      subst h
      constructor <;> intro h2 <;> subst h2 <;>
        simp [validateDownloadFile, hb, hf, hbb, hff]

/-- Witness for C9: against `envOnlyA` (bucket exists, only `a.txt`
exists) a download of `b.txt` fails with the file-not-found error and a
download of `a.txt` validates. -/
theorem validateDownloadFile_cases_witness :
    (validateDownloadFile envOnlyA ⟨"bucket", "b.txt"⟩).out = .error "file not found" ∧
    (validateDownloadFile envOnlyA ⟨"bucket", "a.txt"⟩).out = .ok () := by
  have h1 := ((validateDownloadFile_cases envOnlyA ⟨"bucket", "b.txt"⟩).2
    (by decide) (by decide) true rfl).2 rfl false rfl
  have h2 := ((validateDownloadFile_cases envOnlyA ⟨"bucket", "a.txt"⟩).2
    (by decide) (by decide) true rfl).2 rfl true rfl
  exact ⟨h1.1 rfl, h2.2 rfl⟩
